import Mathlib

/-!
Verification of `src/context/MessengerContext.js` (bottender).

The file embeds the MessengerContext class as pure Lean functions.  Each
public method is modelled as a function from the context state and the
call arguments to a `CallResult` record describing the observable effects
of the call: the warnings it emits, the jobs it enqueues on the context's
`DelayableJobQueue`, the immediate platform-client events it performs, and
the shape of the promise it returns.

`DelayableJobQueue` itself (imported by the source file but not part of
the sources) is modelled from the spec as a sequential drain over the list
of enqueued jobs, producing an event trace and a per-job outcome list.
-/

/-- Values passed around as JavaScript arguments (user ids, message texts,
options objects).  Objects that the code never inspects are represented by
a tagged token. -/
inductive JSVal where
  | str (s : String)
  | num (n : Nat)
  | obj (tag : String)
deriving DecidableEq, Repr

/-- Session user, exposing `user.id` as the source expects. -/
structure SessionUser where
  id : JSVal
deriving DecidableEq, Repr

/-- MessengerSession: the identity binding for one conversation. -/
structure MessengerSession where
  user : SessionUser
deriving DecidableEq, Repr

/-- Warnings emitted through the `warning` module, identified by the
method name appearing in the message string. -/
inductive Warning where
  | sessionMissing (method : String)
  | deprecated (method : String)
deriving DecidableEq, Repr

/-- Predicate picking out deprecation warnings. -/
def Warning.isDeprecated : Warning → Bool
  | .deprecated _ => true
  | _ => false

/-- Job record handed to `_enqueue`: the client method name, its argument
list, the pacing delay, and whether typing indicators are requested. -/
structure Job where
  method : String
  args : List JSVal
  delay : Nat
  showIndicators : Bool
deriving DecidableEq, Repr

/-- Invocation of a method on the platform client. -/
structure ClientCall where
  method : String
  args : List JSVal
deriving DecidableEq, Repr

/-- Platform call a job performs when drained: `instance[method](...args)`. -/
def Job.call (j : Job) : ClientCall := ⟨j.method, j.args⟩

/-- Observable events on the platform client and the clock. -/
inductive Event where
  | action (c : ClientCall)
  | indicatorOn (uid : JSVal)
  | indicatorOff (uid : JSVal)
  | sleep (ms : Nat)
deriving DecidableEq, Repr

/-- Shape of the promise a public method returns: an immediately resolved
no-op (session-less path), a deferred settled by a queued job, or the
direct result of a client call. -/
inductive MethodOutcome where
  | resolvedNoop
  | deferredOf (j : Job)
  | directResult (c : ClientCall)
deriving DecidableEq, Repr

/-- Observable effects of one public-method call. -/
structure CallResult where
  warnings : List Warning
  enqueued : List Job
  events : List Event
  outcome : MethodOutcome
deriving DecidableEq, Repr

/-- State of a MessengerContext: the optional bound session and the
mutable default message delay. -/
structure MessengerContext where
  session : Option MessengerSession
  messageDelay : Nat
deriving DecidableEq, Repr

namespace MessengerContext

/-- Constructor: stores the session and runs `this.setMessageDelay(1000)`.
Modelled from the spec: the `setMessageDelay` helper lives in the parent
`Context` class, absent from the sources; the spec states construction
sets the default message delay to 1000 ms. -/
def construct (session : Option MessengerSession) : MessengerContext :=
  { session := session, messageDelay := 1000 }

/-- Modelled from the spec: `setMessageDelay` (parent `Context` class,
absent from the sources) replaces the context's default message delay. -/
def setMessageDelay (ctx : MessengerContext) (ms : Nat) : MessengerContext :=
  { ctx with messageDelay := ms }

/-- `typingOn()`: warn-and-resolve without a session, otherwise a direct
`client.typingOn(session.user.id)` call. -/
def typingOn (ctx : MessengerContext) : CallResult :=
  match ctx.session with
  | none =>
      { warnings := [.sessionMissing "typingOn"], enqueued := [],
        events := [], outcome := .resolvedNoop }
  | some s =>
      { warnings := [], enqueued := [],
        events := [.indicatorOn s.user.id],
        outcome := .directResult ⟨"typingOn", [s.user.id]⟩ }

/-- `typingOff()`: warn-and-resolve without a session, otherwise a direct
`client.typingOff(session.user.id)` call. -/
def typingOff (ctx : MessengerContext) : CallResult :=
  match ctx.session with
  | none =>
      { warnings := [.sessionMissing "typingOff"], enqueued := [],
        events := [], outcome := .resolvedNoop }
  | some s =>
      { warnings := [], enqueued := [],
        events := [.indicatorOff s.user.id],
        outcome := .directResult ⟨"typingOff", [s.user.id]⟩ }

/-- `typing(ms)`: awaits `this.typingOn()`, sleeps `ms`, awaits
`this.typingOff()`; nothing is enqueued. -/
def typing (ctx : MessengerContext) (ms : Nat) : CallResult :=
  let tOn := ctx.typingOn
  let tOff := ctx.typingOff
  { warnings := tOn.warnings ++ tOff.warnings,
    enqueued := tOn.enqueued ++ tOff.enqueued,
    events := tOn.events ++ [.sleep ms] ++ tOff.events,
    outcome := .resolvedNoop }

/-- `sendText(text, options?)`: warn-and-resolve without a session,
otherwise enqueue `client.sendText(session.user.id, text[, options])`
with the context's default delay and indicators requested. -/
def sendText (ctx : MessengerContext) (text : String) (options : Option JSVal) :
    CallResult :=
  match ctx.session with
  | none =>
      { warnings := [.sessionMissing "sendText"], enqueued := [],
        events := [], outcome := .resolvedNoop }
  | some s =>
      let j : Job :=
        { method := "sendText",
          args :=
            match options with
            | some o => [s.user.id, .str text, o]
            | none => [s.user.id, .str text],
          delay := ctx.messageDelay,
          showIndicators := true }
      { warnings := [], enqueued := [j], events := [], outcome := .deferredOf j }

/-- `sendTextWithDelay(delay, text)`: warn-and-resolve without a session,
otherwise enqueue `client.sendText(session.user.id, text)` with the
explicit delay and indicators requested. -/
def sendTextWithDelay (ctx : MessengerContext) (delay : Nat) (text : String) :
    CallResult :=
  match ctx.session with
  | none =>
      { warnings := [.sessionMissing "sendTextWithDelay"], enqueued := [],
        events := [], outcome := .resolvedNoop }
  | some s =>
      let j : Job :=
        { method := "sendText",
          args := [s.user.id, .str text],
          delay := delay,
          showIndicators := true }
      { warnings := [], enqueued := [j], events := [], outcome := .deferredOf j }

end MessengerContext

/-- Fixed table of mechanically generated send-family methods
(the `sendMethods` array in the source). -/
inductive SendMethod where
  | sendAttachment
  | sendImage
  | sendAudio
  | sendVideo
  | sendFile
  | sendQuickReplies
  | sendGenericTemplate
  | sendButtonTemplate
  | sendListTemplate
  | sendReceiptTemplate
  | sendAirlineBoardingPassTemplate
  | sendAirlineCheckinTemplate
  | sendAirlineItineraryTemplate
  | sendAirlineFlightUpdateTemplate
deriving DecidableEq, Repr

/-- Client method name of a generated send-family method. -/
def SendMethod.name : SendMethod → String
  | .sendAttachment => "sendAttachment"
  | .sendImage => "sendImage"
  | .sendAudio => "sendAudio"
  | .sendVideo => "sendVideo"
  | .sendFile => "sendFile"
  | .sendQuickReplies => "sendQuickReplies"
  | .sendGenericTemplate => "sendGenericTemplate"
  | .sendButtonTemplate => "sendButtonTemplate"
  | .sendListTemplate => "sendListTemplate"
  | .sendReceiptTemplate => "sendReceiptTemplate"
  | .sendAirlineBoardingPassTemplate => "sendAirlineBoardingPassTemplate"
  | .sendAirlineCheckinTemplate => "sendAirlineCheckinTemplate"
  | .sendAirlineItineraryTemplate => "sendAirlineItineraryTemplate"
  | .sendAirlineFlightUpdateTemplate => "sendAirlineFlightUpdateTemplate"

namespace MessengerContext

/-- Generated base method `ctx.<m>(...args)` installed by the
`sendMethods.forEach` loop: warn-and-resolve without a session, otherwise
enqueue `client[m](session.user.id, ...args)` with the default delay and
indicators requested. -/
def genericSend (ctx : MessengerContext) (m : SendMethod) (args : List JSVal) :
    CallResult :=
  match ctx.session with
  | none =>
      { warnings := [.sessionMissing m.name], enqueued := [],
        events := [], outcome := .resolvedNoop }
  | some s =>
      let j : Job :=
        { method := m.name,
          args := s.user.id :: args,
          delay := ctx.messageDelay,
          showIndicators := true }
      { warnings := [], enqueued := [j], events := [], outcome := .deferredOf j }

/-- Generated `ctx.<m>WithDelay(delay, ...rest)` variant: always emits a
deprecation warning first, then warn-and-resolves without a session,
otherwise enqueues `client[m](session.user.id, ...rest)` with the explicit
delay and indicators requested. -/
def genericSendWithDelay (ctx : MessengerContext) (m : SendMethod)
    (delay : Nat) (rest : List JSVal) : CallResult :=
  match ctx.session with
  | none =>
      { warnings := [.deprecated (m.name ++ "WithDelay"),
                      .sessionMissing (m.name ++ "WithDelay")],
        enqueued := [], events := [], outcome := .resolvedNoop }
  | some s =>
      let j : Job :=
        { method := m.name,
          args := s.user.id :: rest,
          delay := delay,
          showIndicators := true }
      { warnings := [.deprecated (m.name ++ "WithDelay")],
        enqueued := [j], events := [], outcome := .deferredOf j }

/-- Queue before-hook wired in the constructor: when the job requests
indicators, call `this.typingOn()`, then sleep for the job's delay. -/
def beforeEachHook (ctx : MessengerContext) (j : Job) : List Event :=
  (if j.showIndicators then ctx.typingOn.events else []) ++ [.sleep j.delay]

/-- Queue after-hook wired in the constructor: when the job requests
indicators, call `this.typingOff()`. -/
def afterHook (ctx : MessengerContext) (j : Job) : List Event :=
  if j.showIndicators then ctx.typingOff.events else []

end MessengerContext

/-- Behaviour of the platform client: each call settles with a resolution
value or a rejection value. -/
def Client : Type := ClientCall → Except JSVal JSVal

namespace DelayableJobQueue

/-- Events one drained job contributes: its before-hook events, its own
client invocation, then its after-hook events. -/
def jobTrace (ctx : MessengerContext) (j : Job) : List Event :=
  ctx.beforeEachHook j ++ [.action j.call] ++ ctx.afterHook j

/-- Modelled from the spec: `DelayableJobQueue` (imported by the source
but absent from the sources) drains sequentially — pop the head job, await
the before-hook, invoke the job's client call and await settlement, await
the after-hook, route the settlement to the job's `onSuccess`/`onError`,
and continue with the next job regardless of failure.  The result is the
full event trace and the per-job settlement list, in enqueue order. -/
def drain (ctx : MessengerContext) (client : Client) :
    List Job → List Event × List (Except JSVal JSVal)
  | [] => ([], [])
  | j :: rest =>
      let beforeEvs := ctx.beforeEachHook j
      let settled := client j.call
      let afterEvs := ctx.afterHook j
      let tail := drain ctx client rest
      (beforeEvs ++ [.action j.call] ++ afterEvs ++ tail.1, settled :: tail.2)

/-- Client invocations performed by the drained jobs themselves, in trace
order. -/
def actionCalls : List Event → List ClientCall
  | [] => []
  | .action c :: es => c :: actionCalls es
  | _ :: es => actionCalls es

end DelayableJobQueue

/-- Sample session used to instantiate theorems with hypotheses. -/
def sampleSession : MessengerSession := ⟨⟨.str "USER_ID"⟩⟩

/-- Sample context with a bound session. -/
def sampleCtx : MessengerContext := MessengerContext.construct (some sampleSession)

/-- Sample client behaviour: method "A" rejects, everything else resolves. -/
def sampleClient : Client := fun c =>
  if c.method = "A" then .error (.str "boom") else .ok (.str "ok")

/-- Sample job whose platform call the sample client rejects. -/
def jobA : Job := ⟨"A", [], 0, true⟩

/-- Sample job whose platform call the sample client resolves. -/
def jobB : Job := ⟨"B", [], 0, true⟩

namespace DelayableJobQueue

theorem actionCalls_append (a b : List Event) :
    actionCalls (a ++ b) = actionCalls a ++ actionCalls b := by
  induction a with
  | nil => rfl
  | cons e es ih => cases e <;> simp [actionCalls, ih]

theorem actionCalls_beforeEachHook (ctx : MessengerContext) (j : Job) :
    actionCalls (ctx.beforeEachHook j) = [] := by
  unfold MessengerContext.beforeEachHook MessengerContext.typingOn
  cases ctx.session <;> cases j.showIndicators <;> simp [actionCalls]

theorem actionCalls_afterHook (ctx : MessengerContext) (j : Job) :
    actionCalls (ctx.afterHook j) = [] := by
  unfold MessengerContext.afterHook MessengerContext.typingOff
  cases ctx.session <;> cases j.showIndicators <;> simp [actionCalls]

theorem actionCalls_jobTrace (ctx : MessengerContext) (j : Job) :
    actionCalls (jobTrace ctx j) = [j.call] := by
  unfold jobTrace
  rw [actionCalls_append, actionCalls_append, actionCalls_beforeEachHook,
    actionCalls_afterHook]
  rfl

theorem drain_trace_eq (ctx : MessengerContext) (client : Client) (jobs : List Job) :
    (drain ctx client jobs).1 = (jobs.map (jobTrace ctx)).flatten := by
  induction jobs with
  | nil => rfl
  | cons j rest ih => simp [drain, jobTrace, ih]

theorem drain_outcomes_eq (ctx : MessengerContext) (client : Client) (jobs : List Job) :
    (drain ctx client jobs).2 = jobs.map (fun j => client j.call) := by
  induction jobs with
  | nil => rfl
  | cons j rest ih => simp [drain, ih]

theorem actionCalls_flatten_jobTrace (ctx : MessengerContext) (jobs : List Job) :
    actionCalls ((jobs.map (jobTrace ctx)).flatten) = jobs.map Job.call := by
  induction jobs with
  | nil => rfl
  | cons j rest ih => simp [actionCalls_append, actionCalls_jobTrace, ih]

end DelayableJobQueue

open DelayableJobQueue in
/-- Claim C1: for every sequence of jobs enqueued on one queue, draining
produces exactly the concatenation of the per-job traces in FIFO enqueue
order — each job's before-hook events, then its single platform
invocation, then its after-hook events, complete before the next job's
events begin — so platform calls happen in exactly enqueue order, one at
a time. -/
theorem drain_fifo_one_at_a_time (ctx : MessengerContext) (client : Client)
    (jobs : List Job) :
    (drain ctx client jobs).1 = (jobs.map (jobTrace ctx)).flatten
    ∧ (∀ j : Job, jobTrace ctx j
        = ctx.beforeEachHook j ++ [.action j.call] ++ ctx.afterHook j)
    ∧ actionCalls (drain ctx client jobs).1 = jobs.map Job.call := by
  refine ⟨drain_trace_eq ctx client jobs, fun j => rfl, ?_⟩
  rw [drain_trace_eq, actionCalls_flatten_jobTrace]

open DelayableJobQueue in
/-- Claim C4: when job `a`'s platform call rejects, the rejection appears
as `a`'s own settlement in the outcome list (delivered to its deferred),
the drain still settles every job (the queue as a whole does not reject),
and the next job `b` still settles with its own client result and its
platform call still occurs in the trace. -/
theorem drain_rejection_isolated (ctx : MessengerContext) (client : Client)
    (pre post : List Job) (a b : Job) (e : JSVal)
    (h : client a.call = .error e) :
    (drain ctx client (pre ++ a :: b :: post)).2
      = pre.map (fun j => client j.call)
        ++ .error e :: client b.call :: post.map (fun j => client j.call)
    ∧ actionCalls (drain ctx client (pre ++ a :: b :: post)).1
      = (pre ++ a :: b :: post).map Job.call := by
  constructor
  · rw [drain_outcomes_eq]
    simp [h]
  · rw [drain_trace_eq, actionCalls_flatten_jobTrace]

/-- Witness for C4: with a two-job queue where the first job's call
rejects, the first outcome is the rejection and the second job still
settles with its own result. -/
theorem drain_rejection_isolated_witness :
    (DelayableJobQueue.drain sampleCtx
        sampleClient (([] : List Job) ++ jobA :: jobB :: [])).2
      = ([] : List Job).map (fun j => sampleClient j.call)
        ++ .error (.str "boom")
          :: sampleClient jobB.call
          :: ([] : List Job).map (fun j => sampleClient j.call)
    ∧ DelayableJobQueue.actionCalls
        (DelayableJobQueue.drain sampleCtx
          sampleClient
          (([] : List Job) ++ jobA :: jobB :: [])).1
      = (([] : List Job) ++ jobA :: jobB :: []).map Job.call :=
  drain_rejection_isolated sampleCtx
    sampleClient [] [] jobA jobB
    (.str "boom") (by simp [sampleClient, Job.call, jobA])

/-- Claim C2: every session-scoped operation called on a context without a
bound session emits a session-missing warning, enqueues nothing, performs
no platform-client call, and returns an immediately resolved promise. -/
theorem session_missing_noop (ctx : MessengerContext) (h : ctx.session = none) :
    (∀ text options, ctx.sendText text options
        = ⟨[.sessionMissing "sendText"], [], [], .resolvedNoop⟩)
    ∧ (∀ delay text, ctx.sendTextWithDelay delay text
        = ⟨[.sessionMissing "sendTextWithDelay"], [], [], .resolvedNoop⟩)
    ∧ ctx.typingOn = ⟨[.sessionMissing "typingOn"], [], [], .resolvedNoop⟩
    ∧ ctx.typingOff = ⟨[.sessionMissing "typingOff"], [], [], .resolvedNoop⟩
    ∧ (∀ m args, ctx.genericSend m args
        = ⟨[.sessionMissing m.name], [], [], .resolvedNoop⟩)
    ∧ (∀ m delay rest, ctx.genericSendWithDelay m delay rest
        = ⟨[.deprecated (m.name ++ "WithDelay"),
            .sessionMissing (m.name ++ "WithDelay")], [], [], .resolvedNoop⟩) := by
  refine ⟨?_, ?_, ?_, ?_, ?_, ?_⟩ <;>
    simp [MessengerContext.sendText, MessengerContext.sendTextWithDelay,
      MessengerContext.typingOn, MessengerContext.typingOff,
      MessengerContext.genericSend, MessengerContext.genericSendWithDelay, h]

/-- Witness for C2: a freshly constructed session-less context warns and
no-ops on `sendText`. -/
theorem session_missing_noop_witness :
    (MessengerContext.construct none).sendText "hi" none
      = ⟨[.sessionMissing "sendText"], [], [], .resolvedNoop⟩ :=
  (session_missing_noop (MessengerContext.construct none) rfl).1 "hi" none

/-- Claim C3: with a bound session, `sendText` warns nothing and enqueues
exactly one job calling `client.sendText(session.user.id, text)` — with a
third options argument exactly when one is supplied — at the context's
current default message delay with indicators requested; the returned
promise is the job's deferred; a freshly constructed context's default
delay is 1000 ms and `setMessageDelay` changes it. -/
theorem sendText_enqueues (ctx : MessengerContext) (s : MessengerSession)
    (hs : ctx.session = some s) (text : String) (options : Option JSVal) :
    (ctx.sendText text options).warnings = []
    ∧ (ctx.sendText text options).enqueued
      = [⟨"sendText",
          (match options with
           | some o => [s.user.id, .str text, o]
           | none => [s.user.id, .str text]),
          ctx.messageDelay, true⟩]
    ∧ (ctx.sendText text options).outcome
      = .deferredOf ⟨"sendText",
          (match options with
           | some o => [s.user.id, .str text, o]
           | none => [s.user.id, .str text]),
          ctx.messageDelay, true⟩
    ∧ (∀ sess, (MessengerContext.construct sess).messageDelay = 1000)
    ∧ (∀ d, (ctx.setMessageDelay d).messageDelay = d) := by
  refine ⟨?_, ?_, ?_, fun sess => rfl, fun d => rfl⟩ <;>
    simp [MessengerContext.sendText, hs]

/-- Witness for C3: on the sample context, `sendText "hi"` with no options
enqueues the sendText job with delay 1000 and indicators on. -/
theorem sendText_enqueues_witness :
    (sampleCtx.sendText "hi" none).enqueued
      = [⟨"sendText", [.str "USER_ID", .str "hi"], sampleCtx.messageDelay, true⟩] :=
  (sendText_enqueues sampleCtx sampleSession rfl "hi" none).2.1

open DelayableJobQueue in
/-- Claim C5: with a bound session, an executed job with indicators
requested produces exactly the events typing-on, sleep of the job's
delay, the platform call, typing-off, in that order; with indicators
suppressed no typing events occur but the sleep still precedes the
platform call. -/
theorem job_indicator_order (ctx : MessengerContext) (s : MessengerSession)
    (hs : ctx.session = some s) (j : Job) :
    (j.showIndicators = true →
      jobTrace ctx j
        = [.indicatorOn s.user.id, .sleep j.delay, .action j.call,
            .indicatorOff s.user.id])
    ∧ (j.showIndicators = false →
      jobTrace ctx j = [.sleep j.delay, .action j.call]) := by
  unfold jobTrace MessengerContext.beforeEachHook MessengerContext.afterHook
    MessengerContext.typingOn MessengerContext.typingOff
  rw [hs]
  cases h : j.showIndicators <;> simp [h]

/-- Witness for C5: the sample job with indicators requested, run on the
sample context, yields the four events in order. -/
theorem job_indicator_order_witness :
    DelayableJobQueue.jobTrace sampleCtx jobA
      = [.indicatorOn (.str "USER_ID"), .sleep jobA.delay, .action jobA.call,
          .indicatorOff (.str "USER_ID")] :=
  (job_indicator_order sampleCtx sampleSession rfl jobA).1 rfl

/-- Claim C6: with a bound session, `sendTextWithDelay delay text` warns
nothing and enqueues one job invoking the client with exactly
`(session.user.id, text)` — no options slot — identical to the job
`sendText text` (without options) enqueues except for the explicit
delay. -/
theorem sendTextWithDelay_spec (ctx : MessengerContext) (s : MessengerSession)
    (hs : ctx.session = some s) (delay : Nat) (text : String) :
    ctx.sendTextWithDelay delay text
      = ⟨[], [⟨"sendText", [s.user.id, .str text], delay, true⟩], [],
          .deferredOf ⟨"sendText", [s.user.id, .str text], delay, true⟩⟩
    ∧ (∀ j, (ctx.sendText text none).enqueued = [j] →
        (ctx.sendTextWithDelay delay text).enqueued = [{ j with delay := delay }]) := by
  constructor
  · simp [MessengerContext.sendTextWithDelay, hs]
  · intro j hj
    have hj' : j = ⟨"sendText", [s.user.id, .str text], ctx.messageDelay, true⟩ := by
      simpa [MessengerContext.sendText, hs] using hj.symm
    subst hj'
    simp [MessengerContext.sendTextWithDelay, hs]

/-- Witness for C6: on the sample context, `sendTextWithDelay 5 "hi"`
enqueues the sendText job with delay 5. -/
theorem sendTextWithDelay_spec_witness :
    sampleCtx.sendTextWithDelay 5 "hi"
      = ⟨[], [⟨"sendText", [.str "USER_ID", .str "hi"], 5, true⟩], [],
          .deferredOf ⟨"sendText", [.str "USER_ID", .str "hi"], 5, true⟩⟩ :=
  (sendTextWithDelay_spec sampleCtx sampleSession rfl 5 "hi").1

/-- Claim C7: every call of a generated `<method>WithDelay` variant emits
exactly one deprecation warning; without a session it additionally emits
the session-missing warning; with a session it behaves exactly like the
base generated method except that the enqueued job carries the explicit
leading delay argument. -/
theorem withDelay_deprecation (ctx : MessengerContext) (m : SendMethod)
    (delay : Nat) (rest : List JSVal) :
    (ctx.genericSendWithDelay m delay rest).warnings.countP Warning.isDeprecated = 1
    ∧ (ctx.session = none →
        (ctx.genericSendWithDelay m delay rest).warnings
          = [.deprecated (m.name ++ "WithDelay"),
              .sessionMissing (m.name ++ "WithDelay")])
    ∧ (∀ s, ctx.session = some s →
        (ctx.genericSendWithDelay m delay rest).enqueued
            = [⟨m.name, s.user.id :: rest, delay, true⟩]
        ∧ (ctx.genericSendWithDelay m delay rest).outcome
            = .deferredOf ⟨m.name, s.user.id :: rest, delay, true⟩
        ∧ ∀ j, (ctx.genericSend m rest).enqueued = [j] →
            (ctx.genericSendWithDelay m delay rest).enqueued
              = [{ j with delay := delay }]) := by
  refine ⟨?_, ?_, ?_⟩
  · cases h : ctx.session <;>
      simp [MessengerContext.genericSendWithDelay, h, Warning.isDeprecated]
  · intro h
    simp [MessengerContext.genericSendWithDelay, h]
  · intro s hs
    refine ⟨?_, ?_, ?_⟩
    · simp [MessengerContext.genericSendWithDelay, hs]
    · simp [MessengerContext.genericSendWithDelay, hs]
    · intro j hj
      have hj' : j = ⟨m.name, s.user.id :: rest, ctx.messageDelay, true⟩ := by
        simpa [MessengerContext.genericSend, hs] using hj.symm
      subst hj'
      simp [MessengerContext.genericSendWithDelay, hs]

/-- Witness for C7: `sendImageWithDelay` on the sample context emits
exactly one deprecation warning and enqueues the delayed job. -/
theorem withDelay_deprecation_witness :
    (sampleCtx.genericSendWithDelay .sendImage 7 [.str "img"]).warnings.countP
        Warning.isDeprecated = 1
    ∧ (sampleCtx.genericSendWithDelay .sendImage 7 [.str "img"]).enqueued
        = [⟨SendMethod.name .sendImage, .str "USER_ID" :: [.str "img"], 7, true⟩] :=
  ⟨(withDelay_deprecation sampleCtx .sendImage 7 [.str "img"]).1,
    ((withDelay_deprecation sampleCtx .sendImage 7 [.str "img"]).2.2
      sampleSession rfl).1⟩

/-- Claim C8: `typing ms` enqueues nothing on the job queue, and with a
bound session performs exactly typing-on, a sleep of `ms`, typing-off, in
that order, immediately. -/
theorem typing_immediate (ctx : MessengerContext) (ms : Nat) :
    (ctx.typing ms).enqueued = []
    ∧ (∀ s, ctx.session = some s →
        (ctx.typing ms).events
          = [.indicatorOn s.user.id, .sleep ms, .indicatorOff s.user.id]) := by
  constructor
  · cases h : ctx.session <;>
      simp [MessengerContext.typing, MessengerContext.typingOn,
        MessengerContext.typingOff, h]
  · intro s hs
    simp [MessengerContext.typing, MessengerContext.typingOn,
      MessengerContext.typingOff, hs]

/-- Witness for C8: `typing 250` on the sample context performs the three
events in order and enqueues nothing. -/
theorem typing_immediate_witness :
    (sampleCtx.typing 250).enqueued = []
    ∧ (sampleCtx.typing 250).events
      = [.indicatorOn (.str "USER_ID"), .sleep 250, .indicatorOff (.str "USER_ID")] :=
  ⟨(typing_immediate sampleCtx 250).1,
    (typing_immediate sampleCtx 250).2 sampleSession rfl⟩

/-- Claim C9: every job any public operation enqueues has
`showIndicators = true`; no public operation can enqueue a job with
indicators suppressed. -/
theorem public_jobs_show_indicators (ctx : MessengerContext) :
    (∀ text options j, j ∈ (ctx.sendText text options).enqueued →
        j.showIndicators = true)
    ∧ (∀ delay text j, j ∈ (ctx.sendTextWithDelay delay text).enqueued →
        j.showIndicators = true)
    ∧ (∀ m args j, j ∈ (ctx.genericSend m args).enqueued →
        j.showIndicators = true)
    ∧ (∀ m delay rest j, j ∈ (ctx.genericSendWithDelay m delay rest).enqueued →
        j.showIndicators = true) := by
  refine ⟨?_, ?_, ?_, ?_⟩ <;>
    [intro text options j hj; intro delay text j hj; intro m args j hj;
      intro m delay rest j hj] <;>
    cases h : ctx.session <;>
    simp [MessengerContext.sendText, MessengerContext.sendTextWithDelay,
      MessengerContext.genericSend, MessengerContext.genericSendWithDelay,
      h] at hj <;>
    simp [hj]

/-- Witness for C9: the job enqueued by `sendText "hi"` on the sample
context has indicators requested. -/
theorem public_jobs_show_indicators_witness :
    Job.showIndicators
      ⟨"sendText", [.str "USER_ID", .str "hi"], sampleCtx.messageDelay, true⟩
      = true :=
  (public_jobs_show_indicators sampleCtx).1 "hi" none
    ⟨"sendText", [.str "USER_ID", .str "hi"], sampleCtx.messageDelay, true⟩
    (by simp [sampleCtx, sampleSession, MessengerContext.sendText,
      MessengerContext.construct])

/-- Claim C10: `sendTextWithDelay` emits no deprecation warning on any
call, with or without a session — nor do `sendText` or the generated base
methods — while every generated `<method>WithDelay` variant emits exactly
one. -/
theorem deprecation_only_generated (ctx : MessengerContext) :
    (∀ delay text,
        (ctx.sendTextWithDelay delay text).warnings.countP Warning.isDeprecated = 0)
    ∧ (∀ text options,
        (ctx.sendText text options).warnings.countP Warning.isDeprecated = 0)
    ∧ (∀ m args,
        (ctx.genericSend m args).warnings.countP Warning.isDeprecated = 0)
    ∧ (∀ m delay rest,
        (ctx.genericSendWithDelay m delay rest).warnings.countP
          Warning.isDeprecated = 1) := by
  refine ⟨?_, ?_, ?_, ?_⟩ <;> intros <;> cases h : ctx.session <;>
    simp [MessengerContext.sendTextWithDelay, MessengerContext.sendText,
      MessengerContext.genericSend, MessengerContext.genericSendWithDelay, h,
      Warning.isDeprecated]
